import Mathlib

/-!
Verification development for the intpbk front end (lexer + Pratt parser).

The Rust sources are embedded shallowly:
  - bytes are `Nat` values (the `u8` range is all that ever occurs),
  - `Lexer` mirrors `lexer.rs`: the byte buffer, `pos`, `read_pos` and the
    current byte `ch` (0 is the beyond-end sentinel),
  - fallible/panicking parser code returns a `Res` value where `panicked`
    models a Rust panic (a failing `unwrap`/`expect`) and `out` models
    running out of step fuel (used to reason about non-termination),
  - the parser's recursion is fuel-indexed; every claim about a concrete
    run is stated at an explicit, sufficient fuel.
-/

namespace Intpbk

/-- The UTF-8 bytes of a string; for the ASCII sources used throughout,
`Char.toNat` of each character is exactly the byte value. -/
def bytes (s : String) : List Nat := s.data.map Char.toNat

/-- Models `String::from_utf8_lossy(..).to_string()` on the byte slices the
lexer produces (ASCII letters, digits and `_` only, so the conversion is
lossless and characterwise). -/
def strOfBytes (bs : List Nat) : String := String.mk (bs.map Char.ofNat)

/-- The token model of `lexer.rs` (`enum Token`). -/
inductive Token where
  | Illegal
  | Eof
  | Ident (s : String)
  | Int (s : String)
  | Assign
  | Plus
  | Minus
  | Bang
  | Asterisk
  | Slash
  | Lt
  | Gt
  | Eq
  | Neq
  | Comma
  | Semicolon
  | Lparen
  | Rparen
  | Lbrace
  | Rbrace
  | Function
  | Let
  | True
  | False
  | If
  | Else
  | Return
deriving DecidableEq, Repr

/-- The `Display` rendering of a token (`impl fmt::Display for Token`). -/
def Token.displayStr : Token → String
  | .Illegal => "Illegal"
  | .Eof => "EOF"
  | .Ident s => s
  | .Int s => s
  | .Assign => "="
  | .Plus => "+"
  | .Minus => "-"
  | .Bang => "!"
  | .Asterisk => "*"
  | .Slash => "/"
  | .Lt => "<"
  | .Gt => ">"
  | .Eq => "=="
  | .Neq => "!="
  | .Comma => ","
  | .Semicolon => ";"
  | .Lparen => "("
  | .Rparen => ")"
  | .Lbrace => "\x7b"
  | .Rbrace => "\x7d"
  | .Function => "fn"
  | .Let => "let"
  | .True => "true"
  | .False => "false"
  | .If => "if"
  | .Else => "else"
  | .Return => "return"

/-- The `Debug` rendering of a token (`#[derive(Debug)]` on `Token`), as it
appears inside the parser's diagnostic strings.  The carried strings of
`Ident`/`Int` are alphanumeric here, so Rust's string escaping is the
identity on them. -/
def Token.debugStr : Token → String
  | .Illegal => "Illegal"
  | .Eof => "Eof"
  | .Ident s => "Ident(\"" ++ s ++ "\")"
  | .Int s => "Int(\"" ++ s ++ "\")"
  | .Assign => "Assign"
  | .Plus => "Plus"
  | .Minus => "Minus"
  | .Bang => "Bang"
  | .Asterisk => "Asterisk"
  | .Slash => "Slash"
  | .Lt => "Lt"
  | .Gt => "Gt"
  | .Eq => "Eq"
  | .Neq => "Neq"
  | .Comma => "Comma"
  | .Semicolon => "Semicolon"
  | .Lparen => "Lparen"
  | .Rparen => "Rparen"
  | .Lbrace => "Lbrace"
  | .Rbrace => "Rbrace"
  | .Function => "Function"
  | .Let => "Let"
  | .True => "True"
  | .False => "False"
  | .If => "If"
  | .Else => "Else"
  | .Return => "Return"

/-- `fn lookup_ident` of `lexer.rs`: the keyword table. -/
def lookup_ident (ident : String) : Token :=
  if ident = "fn" then Token.Function
  else if ident = "let" then Token.Let
  else if ident = "true" then Token.True
  else if ident = "false" then Token.False
  else if ident = "if" then Token.If
  else if ident = "else" then Token.Else
  else if ident = "return" then Token.Return
  else Token.Ident ident

/-- `fn is_letter` of `lexer.rs`. -/
def is_letter (ch : Nat) : Bool :=
  (97 ≤ ch && ch ≤ 122) || (65 ≤ ch && ch ≤ 90) || ch == 95

/-- `u8::is_ascii_digit`. -/
def isAsciiDigit (ch : Nat) : Bool := 48 ≤ ch && ch ≤ 57

/-- `u8::is_ascii_whitespace`: space, tab, LF, FF, CR. -/
def isAsciiWhitespace (ch : Nat) : Bool :=
  ch == 32 || ch == 9 || ch == 10 || ch == 12 || ch == 13

/-- `struct Lexer` of `lexer.rs`: the owned byte buffer, the current and
next read positions and the current byte (`0` beyond the end). -/
structure Lexer where
  input : List Nat
  pos : Nat
  read_pos : Nat
  ch : Nat
deriving DecidableEq, Repr

/-- `fn read_char` of `lexer.rs`. -/
def Lexer.read_char (l : Lexer) : Lexer :=
  { l with
    ch := if l.input.length ≤ l.read_pos then 0 else l.input.getD l.read_pos 0
    pos := l.read_pos
    read_pos := l.read_pos + 1 }

/-- `Lexer::new` of `lexer.rs`: prime the first character. -/
def Lexer.new (input : List Nat) : Lexer :=
  Lexer.read_char { input := input, pos := 0, read_pos := 0, ch := 0 }

/-- `fn peek_char` of `lexer.rs`: one byte of lookahead, not consuming. -/
def Lexer.peek_char (l : Lexer) : Nat :=
  if l.input.length ≤ l.read_pos then 0 else l.input.getD l.read_pos 0

/-- Termination measure for the lexer's three scanning loops: each loop
body runs `read_char` (which increments `read_pos`), and each loop guard
requires `ch ≠ 0`, which `read_char` forces to `0` once `read_pos` has
passed the end of the buffer. -/
def Lexer.wsMeasure (l : Lexer) : Nat :=
  2 * (l.input.length + 2 - min l.read_pos (l.input.length + 2)) +
    (if l.ch = 0 then 0 else 1)

theorem isAsciiWhitespace_ne_zero {c : Nat} (h : isAsciiWhitespace c = true) : c ≠ 0 := by
  simp only [isAsciiWhitespace, Bool.or_eq_true, beq_iff_eq] at h
  omega

theorem is_letter_ne_zero {c : Nat} (h : is_letter c = true) : c ≠ 0 := by
  simp only [is_letter, Bool.or_eq_true, Bool.and_eq_true, beq_iff_eq,
    decide_eq_true_eq] at h
  omega

theorem isAsciiDigit_ne_zero {c : Nat} (h : isAsciiDigit c = true) : c ≠ 0 := by
  simp only [isAsciiDigit, Bool.and_eq_true, decide_eq_true_eq] at h
  omega

theorem Lexer.read_char_wsMeasure (l : Lexer) (h : l.ch ≠ 0) :
    l.read_char.wsMeasure < l.wsMeasure := by
  simp only [Lexer.wsMeasure, Lexer.read_char]
  split
  · split <;> omega
  · split <;> omega

/-- The common shape of the lexer's three `while <class>(self.ch) {
self.read_char() }` loops, recursing on an explicit bound so that the
kernel can evaluate it; `wsMeasure` always bounds the iteration count
(see `scanLoop_fix`: with that bound the Rust loop equation holds
exactly). -/
def scanLoop (g : Nat → Bool) : Nat → Lexer → Lexer
  | 0, l => l
  | b + 1, l => if g l.ch then scanLoop g b l.read_char else l

theorem scanLoop_congr (g : Nat → Bool) (hg : ∀ c, g c = true → c ≠ 0) :
    ∀ b c l, l.wsMeasure ≤ b → l.wsMeasure ≤ c → scanLoop g b l = scanLoop g c l := by
  intro b
  induction b with
  | zero =>
    intro c l hb hc
    have hch : l.ch = 0 := by
      simp only [Lexer.wsMeasure] at hb
      by_contra hne
      rw [if_neg hne] at hb
      omega
    have hgl : g l.ch = false := by
      by_contra hx
      exact hg l.ch (by simpa using hx) (by rw [hch])
    cases c with
    | zero => rfl
    | succ c => show scanLoop g 0 l = if g l.ch then _ else l; rw [if_neg (by simp [hgl])]; rfl
  | succ b ih =>
    intro c l hb hc
    cases c with
    | zero =>
      have hch : l.ch = 0 := by
        simp only [Lexer.wsMeasure] at hc
        by_contra hne
        rw [if_neg hne] at hc
        omega
      have hgl : g l.ch = false := by
        by_contra hx
        exact hg l.ch (by simpa using hx) (by rw [hch])
      show (if g l.ch then _ else l) = scanLoop g 0 l
      rw [if_neg (by simp [hgl])]
      rfl
    | succ c =>
      by_cases hgl : g l.ch = true
      · have hne := hg _ hgl
        have hlt := Lexer.read_char_wsMeasure l hne
        show (if g l.ch then scanLoop g b l.read_char else l) =
          (if g l.ch then scanLoop g c l.read_char else l)
        rw [if_pos hgl, if_pos hgl]
        exact ih c l.read_char (by omega) (by omega)
      · show (if g l.ch then _ else l) = (if g l.ch then _ else l)
        rw [if_neg (by simp [hgl]), if_neg (by simp [hgl])]

/-- With the bound `wsMeasure`, the bounded loop satisfies exactly the
Rust `while` equation: test the guard, run `read_char`, repeat. -/
theorem scanLoop_fix (g : Nat → Bool) (hg : ∀ c, g c = true → c ≠ 0) (l : Lexer) :
    scanLoop g l.wsMeasure l =
      if g l.ch then scanLoop g l.read_char.wsMeasure l.read_char else l := by
  by_cases hgl : g l.ch = true
  · have hne := hg _ hgl
    have hlt := Lexer.read_char_wsMeasure l hne
    obtain ⟨m, hm⟩ : ∃ m, l.wsMeasure = m + 1 := ⟨l.wsMeasure - 1, by omega⟩
    rw [hm]
    show (if g l.ch then scanLoop g m l.read_char else l) = _
    rw [if_pos hgl, if_pos hgl]
    exact scanLoop_congr g hg m _ l.read_char (by omega) (le_refl _)
  · rw [if_neg (by simp [hgl])]
    cases hv : l.wsMeasure with
    | zero => rfl
    | succ m =>
      show (if g l.ch then _ else l) = l
      rw [if_neg (by simp [hgl])]

/-- The loop of `fn skip_whitespace` of `lexer.rs`. -/
def Lexer.skip_whitespace (l : Lexer) : Lexer := scanLoop isAsciiWhitespace l.wsMeasure l

/-- `skip_whitespace` satisfies the Rust loop equation. -/
theorem skip_whitespace_eq (l : Lexer) :
    l.skip_whitespace =
      if isAsciiWhitespace l.ch then l.read_char.skip_whitespace else l :=
  scanLoop_fix isAsciiWhitespace (fun _ h => isAsciiWhitespace_ne_zero h) l

/-- The loop of `fn read_ident` of `lexer.rs`. -/
def Lexer.read_ident_loop (l : Lexer) : Lexer := scanLoop is_letter l.wsMeasure l

/-- `read_ident_loop` satisfies the Rust loop equation. -/
theorem read_ident_loop_eq (l : Lexer) :
    l.read_ident_loop = if is_letter l.ch then l.read_char.read_ident_loop else l :=
  scanLoop_fix is_letter (fun _ h => is_letter_ne_zero h) l

/-- `fn read_ident` of `lexer.rs`: extend over letters, return the slice
`input[pos..self.pos]` (as a string) together with the advanced lexer. -/
def Lexer.read_ident (l : Lexer) : String × Lexer :=
  let l2 := l.read_ident_loop
  (strOfBytes ((l2.input.drop l.pos).take (l2.pos - l.pos)), l2)

/-- The loop of `fn read_number` of `lexer.rs`. -/
def Lexer.read_number_loop (l : Lexer) : Lexer := scanLoop isAsciiDigit l.wsMeasure l

/-- `read_number_loop` satisfies the Rust loop equation. -/
theorem read_number_loop_eq (l : Lexer) :
    l.read_number_loop = if isAsciiDigit l.ch then l.read_char.read_number_loop else l :=
  scanLoop_fix isAsciiDigit (fun _ h => isAsciiDigit_ne_zero h) l

/-- `fn read_number` of `lexer.rs`. -/
def Lexer.read_number (l : Lexer) : String × Lexer :=
  let l2 := l.read_number_loop
  (strOfBytes ((l2.input.drop l.pos).take (l2.pos - l.pos)), l2)

/-- The `match self.ch` body of `fn next_token` in `lexer.rs`, applied to
the state after `skip_whitespace`.  The Rust signature is
`anyhow::Result<Token>`; every exit of the function is an `Ok`, mirrored
here by `Except.ok` on every branch.  Byte values: `=` 61, `!` 33, `+` 43,
`-` 45, `/` 47, `*` 42, `<` 60, `>` 62, `;` 59, `(` 40, `)` 41, `,` 44,
left brace 123, right brace 125. -/
def Lexer.next_token_at (l : Lexer) : Except String (Token × Lexer) :=
  if l.ch = 61 then
    if l.peek_char = 61 then
      Except.ok (Token.Eq, l.read_char.read_char)
    else
      Except.ok (Token.Assign, l.read_char)
  else if l.ch = 33 then
    if l.peek_char = 61 then
      Except.ok (Token.Neq, l.read_char.read_char)
    else
      Except.ok (Token.Bang, l.read_char)
  else if l.ch = 43 then Except.ok (Token.Plus, l.read_char)
  else if l.ch = 45 then Except.ok (Token.Minus, l.read_char)
  else if l.ch = 47 then Except.ok (Token.Slash, l.read_char)
  else if l.ch = 42 then Except.ok (Token.Asterisk, l.read_char)
  else if l.ch = 60 then Except.ok (Token.Lt, l.read_char)
  else if l.ch = 62 then Except.ok (Token.Gt, l.read_char)
  else if l.ch = 59 then Except.ok (Token.Semicolon, l.read_char)
  else if l.ch = 40 then Except.ok (Token.Lparen, l.read_char)
  else if l.ch = 41 then Except.ok (Token.Rparen, l.read_char)
  else if l.ch = 44 then Except.ok (Token.Comma, l.read_char)
  else if l.ch = 123 then Except.ok (Token.Lbrace, l.read_char)
  else if l.ch = 125 then Except.ok (Token.Rbrace, l.read_char)
  else if l.ch = 0 then Except.ok (Token.Eof, l.read_char)
  else if is_letter l.ch then
    let r := l.read_ident
    Except.ok (lookup_ident r.1, r.2)
  else if isAsciiDigit l.ch then
    let r := l.read_number
    Except.ok (Token.Int r.1, r.2)
  else Except.ok (Token.Illegal, l.read_char)

/-- `fn next_token` of `lexer.rs`: skip whitespace, then classify the
current byte (`next_token_at` above holds the `match self.ch` body). -/
def Lexer.next_token (l0 : Lexer) : Except String (Token × Lexer) :=
  Lexer.next_token_at l0.skip_whitespace

/-- The first `n` tokens of a lexer's stream (each call to `next_token`
yields one; an `Err` — which never occurs — would stop the collection). -/
def lexN : Nat → Lexer → List Token
  | 0, _ => []
  | n + 1, l =>
    match l.next_token with
    | Except.ok (t, l2) => t :: lexN n l2
    | Except.error _ => []

/-- The byte classes `next_token` recognizes: whitespace is skipped first;
operators/punctuation, the 0 sentinel, letters and digits each map to a
token; anything else is the `Illegal` fallthrough. -/
def recognizedByte (ch : Nat) : Bool :=
  ch == 61 || ch == 33 || ch == 43 || ch == 45 || ch == 47 || ch == 42 ||
  ch == 60 || ch == 62 || ch == 59 || ch == 40 || ch == 41 || ch == 44 ||
  ch == 123 || ch == 125 || ch == 0 || is_letter ch || isAsciiDigit ch

/-- `enum Expression` of `ast.rs`, together with the two variants the
parser constructs (`parser.rs` builds `Expression::Prefix` and
`Expression::Infix` in `parse_prefix_expr`/`parse_infix_expr`).
Modelled from the spec: the `Prefix(operator-token, optional owned
right-operand)` and `Infix(optional owned left-operand, operator-token,
optional owned right-operand)` variants of the spec's AST data model are
absent from the `ast.rs` snapshot under `src/` although `parser.rs`
constructs them; they are added here following the spec's words. -/
inductive Expression where
  | Identifier (t : Token)
  | IntegerLiteral (t : Token) (v : Int)
  | Prefix (t : Token) (right : Option Expression)
  | Infix (left : Option Expression) (t : Token) (right : Option Expression)
deriving Repr

/-- `enum Statement` of `ast.rs`. -/
inductive Statement where
  | Let (keyword : Token) (ident : Token) (e : Option Expression)
  | Return (keyword : Token) (e : Option Expression)
  | Expression (t : Token) (e : Option Expression)
deriving Repr

/-- `enum Node` of `ast.rs`. -/
inductive Node where
  | Program (stmts : List Statement)
deriving Repr

/-- The `Display` rendering of an expression.  The `Identifier` and
`IntegerLiteral` arms are `impl Display for Expression` in `ast.rs`.
Modelled from the spec: the arms for the `Prefix` and `Infix` variants are
absent from the `ast.rs` snapshot; following the spec's words, `Prefix`
renders as `(<op><operand>)` and `Infix` as `(<left> <op> <right>)` (a
missing optional operand, like the other optional slots in `ast.rs`'s
`Display` code, contributes nothing). -/
def Expression.render : Expression → String
  | .Identifier t => t.displayStr
  | .IntegerLiteral t _ => t.displayStr
  | .Prefix t r =>
      "(" ++ t.displayStr ++ (match r with | some e => e.render | none => "") ++ ")"
  | .Infix l t r =>
      "(" ++ (match l with | some e => e.render | none => "") ++ " " ++
        t.displayStr ++ " " ++
        (match r with | some e => e.render | none => "") ++ ")"

/-- Rendering of an optional owned operand slot. -/
def renderOpt : Option Expression → String
  | some e => e.render
  | none => ""

/-- The `Display` rendering of a statement (`impl Display for Statement`
in `ast.rs`). -/
def Statement.render : Statement → String
  | .Let keyword ident e => keyword.displayStr ++ " " ++ ident.displayStr ++ " = " ++ renderOpt e
  | .Return keyword e =>
      keyword.displayStr ++ (match e with | some x => " " ++ x.render | none => "")
  | .Expression _ e => renderOpt e

/-- `Statement::Let` recognizer (used to state that a malformed `let`
produces no Let statement). -/
def Statement.isLet : Statement → Bool
  | .Let _ _ _ => true
  | _ => false

/-- Outcome of running a piece of parser code: a normal return, a Rust
panic (a failing `unwrap`/`expect`), or exhaustion of the step fuel the
embedding threads through every loop and recursion. -/
inductive Res (α : Type) where
  | ok (a : α)
  | panicked
  | out
deriving Repr

/-- `struct Parser` of `parser.rs`. -/
structure Parser where
  lexer : Lexer
  cur_token : Option Token
  peek_token : Option Token
  errors : List String
deriving Repr

/-- The precedence constants of `parser.rs`. -/
def LOWEST : Nat := 1
def EQUALS : Nat := 2
def LESSGREATER : Nat := 3
def SUM : Nat := 4
def PRODUCT : Nat := 5
def PREFIX : Nat := 6
def CALL : Nat := 7

/-- `fn precedence` of `parser.rs`, on the token inside the `Option` (the
Rust function takes `&Option<Token>` and unwraps; the unwrap is modelled
at each call site). -/
def precedence : Token → Nat
  | Token.Eq => EQUALS
  | Token.Neq => EQUALS
  | Token.Lt => LESSGREATER
  | Token.Gt => LESSGREATER
  | Token.Plus => SUM
  | Token.Minus => SUM
  | Token.Slash => PRODUCT
  | Token.Asterisk => PRODUCT
  | Token.Lparen => CALL
  | _ => LOWEST

/-- `fn is_prefix_op` of `parser.rs`. -/
def is_prefix_op : Token → Bool
  | Token.Ident _ => true
  | Token.Int _ => true
  | Token.Bang => true
  | Token.Minus => true
  | _ => false

/-- `fn is_infix_op` of `parser.rs`. -/
def is_infix_op : Token → Bool
  | Token.Plus => true
  | Token.Minus => true
  | Token.Slash => true
  | Token.Asterisk => true
  | Token.Eq => true
  | Token.Neq => true
  | Token.Lt => true
  | Token.Gt => true
  | _ => false

/-- Models `str::parse::<i64>()` on the strings `read_number` produces
(one or more ASCII digits, no sign): the numeric value if it fits in a
signed 64-bit integer, `none` (an `Err`, so a panicking `unwrap`) on
overflow.  Empty or non-digit text — which the lexer never yields for an
`Int` token — is also an `Err`. -/
def parse_i64 (s : String) : Option Int :=
  if s.data ≠ [] ∧ s.data.all (fun c => c.isDigit) then
    let n := s.data.foldl (fun acc c => 10 * acc + (c.toNat - 48)) 0
    if n ≤ 9223372036854775807 then some (Int.ofNat n) else none
  else none

/-- `fn next_token` of `parser.rs`: shift the lookahead window and pull a
fresh token from the lexer.  The `.expect("Where's my token?")` cannot
fire: every exit of `Lexer::next_token` is an `Ok` (proved below), so the
`Except.error` arm here is dead code kept only for totality. -/
def Parser.next_token (p : Parser) : Parser :=
  match p.lexer.next_token with
  | Except.ok (t, lx) =>
      { lexer := lx, cur_token := p.peek_token, peek_token := some t, errors := p.errors }
  | Except.error _ =>
      { lexer := p.lexer, cur_token := p.peek_token, peek_token := none, errors := p.errors }

/-- `Parser::new` of `parser.rs`: prime the two-token lookahead. -/
def Parser.new (lexer : Lexer) : Parser :=
  Parser.next_token (Parser.next_token
    { lexer := lexer, cur_token := none, peek_token := none, errors := [] })

/-- The diagnostic string of `fn peek_error` in `parser.rs`. -/
def expectedMsg (expected actual : Token) : String :=
  "expected next token to be " ++ expected.debugStr ++ ", got " ++
    actual.debugStr ++ " instead"

/-- `fn peek_error` of `parser.rs`; `self.peek_token.as_ref().unwrap()`
panics when the peek slot is empty. -/
def Parser.peek_error (p : Parser) (expected : Token) : Res Parser :=
  match p.peek_token with
  | none => Res.panicked
  | some actual => Res.ok { p with errors := p.errors ++ [expectedMsg expected actual] }

/-- The `while self.cur_token != Some(Token::Semicolon)` recovery loop
shared by `parse_let_stmt` and `parse_return_stmt` in `parser.rs`.  Note
the guard: only a `Semicolon` stops it. -/
def Parser.scan_to_semicolon : Nat → Parser → Res Parser
  | 0, _ => Res.out
  | fuel + 1, p =>
    if p.cur_token = some Token.Semicolon then Res.ok p
    else Parser.scan_to_semicolon fuel p.next_token

/-- `fn parse_identifier` of `parser.rs` (`clone().unwrap()` panics on an
empty current slot). -/
def Parser.parse_identifier (p : Parser) : Res (Option Expression) :=
  match p.cur_token with
  | none => Res.panicked
  | some t => Res.ok (some (Expression.Identifier t))

/-- `fn parse_integer_literal` of `parser.rs`: `val.parse().unwrap()`
panics when the digit text does not fit in an `i64`. -/
def Parser.parse_integer_literal (p : Parser) : Res (Option Expression) :=
  match p.cur_token with
  | none => Res.panicked
  | some (Token.Int val) =>
      match parse_i64 val with
      | some lit => Res.ok (some (Expression.IntegerLiteral (Token.Int val) lit))
      | none => Res.panicked
  | some _ => Res.ok none

mutual

/-- `fn parse_expr` of `parser.rs`, minus its folding loop (below). -/
def Parser.parse_expr (fuel : Nat) (prec : Nat) (p : Parser) :
    Res (Option Expression × Parser) :=
  match fuel with
  | 0 => Res.out
  | fuel + 1 =>
    match p.cur_token with
    | none => Res.panicked
    | some cur =>
      if is_prefix_op cur then
        match Parser.parse_prefix_rule fuel p with
        | Res.ok (left, p) => Parser.parse_expr_loop fuel prec left p
        | Res.panicked => Res.panicked
        | Res.out => Res.out
      else
        Res.ok (none,
          { p with errors := p.errors ++ ["no prefix parse function for " ++ cur.displayStr] })

/-- The `while` loop of `fn parse_expr`: fold infix operators while the
peek token is not `;` and binds tighter than `prec`.  Evaluating
`precedence(&self.peek_token)` unwraps the peek slot, hence the
`panicked` arm on an empty slot. -/
def Parser.parse_expr_loop (fuel : Nat) (prec : Nat) (left : Option Expression)
    (p : Parser) : Res (Option Expression × Parser) :=
  match fuel with
  | 0 => Res.out
  | fuel + 1 =>
    if p.peek_token = some Token.Semicolon then Res.ok (left, p)
    else
      match p.peek_token with
      | none => Res.panicked
      | some pk =>
        if prec < precedence pk then
          if is_infix_op pk then
            match Parser.parse_infix_rule fuel left p.next_token with
            | Res.ok (left, p) => Parser.parse_expr_loop fuel prec left p
            | Res.panicked => Res.panicked
            | Res.out => Res.out
          else Res.ok (left, p)
        else Res.ok (left, p)

/-- `fn parse_prefix` of `parser.rs`: the prefix-rule dispatch. -/
def Parser.parse_prefix_rule (fuel : Nat) (p : Parser) :
    Res (Option Expression × Parser) :=
  match fuel with
  | 0 => Res.out
  | fuel + 1 =>
    match p.cur_token with
    | some (Token.Ident _) =>
        match p.parse_identifier with
        | Res.ok e => Res.ok (e, p)
        | Res.panicked => Res.panicked
        | Res.out => Res.out
    | some (Token.Int _) =>
        match p.parse_integer_literal with
        | Res.ok e => Res.ok (e, p)
        | Res.panicked => Res.panicked
        | Res.out => Res.out
    | some Token.Bang => Parser.parse_prefix_expr fuel p
    | some Token.Minus => Parser.parse_prefix_expr fuel p
    | _ => Res.ok (none, p)

/-- `fn parse_infix` of `parser.rs`: the infix-rule dispatch (its `_`
fallthrough discards `left` and returns `None`). -/
def Parser.parse_infix_rule (fuel : Nat) (left : Option Expression) (p : Parser) :
    Res (Option Expression × Parser) :=
  match fuel with
  | 0 => Res.out
  | fuel + 1 =>
    match p.cur_token with
    | some Token.Plus => Parser.parse_infix_expr fuel left p
    | some Token.Minus => Parser.parse_infix_expr fuel left p
    | some Token.Slash => Parser.parse_infix_expr fuel left p
    | some Token.Asterisk => Parser.parse_infix_expr fuel left p
    | some Token.Eq => Parser.parse_infix_expr fuel left p
    | some Token.Neq => Parser.parse_infix_expr fuel left p
    | some Token.Lt => Parser.parse_infix_expr fuel left p
    | some Token.Gt => Parser.parse_infix_expr fuel left p
    | _ => Res.ok (none, p)

/-- `fn parse_prefix_expr` of `parser.rs`: take the operator token,
advance, parse the operand at `PREFIX` precedence. -/
def Parser.parse_prefix_expr (fuel : Nat) (p : Parser) :
    Res (Option Expression × Parser) :=
  match fuel with
  | 0 => Res.out
  | fuel + 1 =>
    let token := p.cur_token
    let p := { p with cur_token := none }
    let p := p.next_token
    match Parser.parse_expr fuel PREFIX p with
    | Res.ok (right, p) =>
        match token with
        | none => Res.panicked
        | some t => Res.ok (some (Expression.Prefix t right), p)
    | Res.panicked => Res.panicked
    | Res.out => Res.out

/-- `fn parse_infix_expr` of `parser.rs`: take the operator token (whose
precedence is looked up through an unwrap), advance, parse the right
operand at that precedence, fold with `left`. -/
def Parser.parse_infix_expr (fuel : Nat) (left : Option Expression) (p : Parser) :
    Res (Option Expression × Parser) :=
  match fuel with
  | 0 => Res.out
  | fuel + 1 =>
    let operator := p.cur_token
    let p := { p with cur_token := none }
    match operator with
    | none => Res.panicked
    | some op =>
      let p := p.next_token
      match Parser.parse_expr fuel (precedence op) p with
      | Res.ok (right, p) => Res.ok (some (Expression.Infix left op right), p)
      | Res.panicked => Res.panicked
      | Res.out => Res.out

end

/-- `fn parse_let_stmt` of `parser.rs`: require an identifier after `let`
(else record a diagnostic and return no node), require `=` after the
identifier (else record a diagnostic and return no node), then scan
forward to `;`; the expression slot is left unpopulated. -/
def Parser.parse_let_stmt (fuel : Nat) (p : Parser) : Res (Option Statement × Parser) :=
  match p.cur_token with
  | none => Res.panicked
  | some let_token =>
    let p := { p with cur_token := none }
    match p.peek_token with
    | some (Token.Ident s) =>
      let p := p.next_token
      match p.cur_token with
      | none => Res.panicked
      | some ident_token =>
        let p := { p with cur_token := none }
        if p.peek_token = some Token.Assign then
          match Parser.scan_to_semicolon fuel p with
          | Res.ok p => Res.ok (some (Statement.Let let_token ident_token none), p)
          | Res.panicked => Res.panicked
          | Res.out => Res.out
        else
          match p.peek_error Token.Assign with
          | Res.ok p => Res.ok (none, p)
          | Res.panicked => Res.panicked
          | Res.out => Res.out
    | _ =>
      match p.peek_error (Token.Ident "identifier") with
      | Res.ok p => Res.ok (none, p)
      | Res.panicked => Res.panicked
      | Res.out => Res.out

/-- `fn parse_return_stmt` of `parser.rs`: advance past `return`, scan to
`;`, return a `Return` node with an empty expression slot. -/
def Parser.parse_return_stmt (fuel : Nat) (p : Parser) : Res (Option Statement × Parser) :=
  match p.cur_token with
  | none => Res.panicked
  | some return_token =>
    let p := { p with cur_token := none }
    let p := p.next_token
    match Parser.scan_to_semicolon fuel p with
    | Res.ok p => Res.ok (some (Statement.Return return_token none), p)
    | Res.panicked => Res.panicked
    | Res.out => Res.out

/-- `fn parse_expr_stmt` of `parser.rs`. -/
def Parser.parse_expr_stmt (fuel : Nat) (p : Parser) : Res (Option Statement × Parser) :=
  match p.cur_token with
  | none => Res.panicked
  | some tok =>
    match Parser.parse_expr fuel LOWEST p with
    | Res.ok (expr, p) =>
      let p := if p.peek_token = some Token.Semicolon then p.next_token else p
      Res.ok (some (Statement.Expression tok expr), p)
    | Res.panicked => Res.panicked
    | Res.out => Res.out

/-- `fn parse_stmt` of `parser.rs`: the statement dispatch. -/
def Parser.parse_stmt (fuel : Nat) (p : Parser) : Res (Option Statement × Parser) :=
  match p.cur_token with
  | some Token.Let => Parser.parse_let_stmt fuel p
  | some Token.Return => Parser.parse_return_stmt fuel p
  | _ => Parser.parse_expr_stmt fuel p

/-- The `while self.cur_token != Some(Token::Eof)` loop of
`fn parse_program` in `parser.rs`. -/
def Parser.parse_program_loop : Nat → Parser → List Statement → Res (List Statement × Parser)
  | 0, _, _ => Res.out
  | fuel + 1, p, acc =>
    if p.cur_token = some Token.Eof then Res.ok (acc, p)
    else
      match Parser.parse_stmt fuel p with
      | Res.ok (stmtOpt, p) =>
        let acc := match stmtOpt with | some s => acc ++ [s] | none => acc
        Parser.parse_program_loop fuel p.next_token acc
      | Res.panicked => Res.panicked
      | Res.out => Res.out

/-- `fn parse_program` of `parser.rs` (its Rust result is always an `Ok`
wrapping the `Program` node; the surrounding `Res` carries the panic and
fuel outcomes of the embedding). -/
def Parser.parse_program (fuel : Nat) (p : Parser) : Res (Node × Parser) :=
  match Parser.parse_program_loop fuel p [] with
  | Res.ok (stmts, p) => Res.ok (Node.Program stmts, p)
  | Res.panicked => Res.panicked
  | Res.out => Res.out

/-- A parser primed on a source string, as the tests in `parser.rs` build
one (`Parser::new(Lexer::new(input))`). -/
def mkParser (s : String) : Parser := Parser.new (Lexer.new (bytes s))

/-- Run `parse_program` on a source string. -/
def runProgram (fuel : Nat) (s : String) : Res (Node × Parser) :=
  Parser.parse_program fuel (mkParser s)

/-- The statements and diagnostics of a completed run (`None` when the
run panicked or ran out of fuel). -/
def progStmtsErrors (fuel : Nat) (s : String) : Option (List Statement × List String) :=
  match runProgram fuel s with
  | Res.ok (Node.Program stmts, p) => some (stmts, p.errors)
  | _ => none

/-- Statement count and concatenated rendering of a completed run, the
way `test_operator_precedence` in `parser.rs` renders a program (the
statements' strings joined with the empty separator). -/
def progRender (fuel : Nat) (s : String) : Option (Nat × String) :=
  match runProgram fuel s with
  | Res.ok (Node.Program stmts, _) => some (stmts.length, String.join (stmts.map Statement.render))
  | _ => none

/-! Helper lemmas about the lexer. -/

theorem skip_whitespace_not_ws (l : Lexer) (h : isAsciiWhitespace l.ch = false) :
    l.skip_whitespace = l := by
  rw [skip_whitespace_eq]
  simp [h]

/-- Whether a lexer step returned a token (an `Ok` in the Rust source). -/
def exceptIsOk : Except String (Token × Lexer) → Bool
  | Except.ok _ => true
  | Except.error _ => false

theorem next_token_at_isOk (l : Lexer) : exceptIsOk l.next_token_at = true := by
  unfold Lexer.next_token_at
  by_cases h1 : l.ch = 61
  · rw [if_pos h1]
    by_cases hp : l.peek_char = 61
    · rw [if_pos hp]; rfl
    · rw [if_neg hp]; rfl
  · rw [if_neg h1]
    by_cases h2 : l.ch = 33
    · rw [if_pos h2]
      by_cases hp : l.peek_char = 61
      · rw [if_pos hp]; rfl
      · rw [if_neg hp]; rfl
    · rw [if_neg h2]
      by_cases h3 : l.ch = 43
      · rw [if_pos h3]; rfl
      · rw [if_neg h3]
        by_cases h4 : l.ch = 45
        · rw [if_pos h4]; rfl
        · rw [if_neg h4]
          by_cases h5 : l.ch = 47
          · rw [if_pos h5]; rfl
          · rw [if_neg h5]
            by_cases h6 : l.ch = 42
            · rw [if_pos h6]; rfl
            · rw [if_neg h6]
              by_cases h7 : l.ch = 60
              · rw [if_pos h7]; rfl
              · rw [if_neg h7]
                by_cases h8 : l.ch = 62
                · rw [if_pos h8]; rfl
                · rw [if_neg h8]
                  by_cases h9 : l.ch = 59
                  · rw [if_pos h9]; rfl
                  · rw [if_neg h9]
                    by_cases h10 : l.ch = 40
                    · rw [if_pos h10]; rfl
                    · rw [if_neg h10]
                      by_cases h11 : l.ch = 41
                      · rw [if_pos h11]; rfl
                      · rw [if_neg h11]
                        by_cases h12 : l.ch = 44
                        · rw [if_pos h12]; rfl
                        · rw [if_neg h12]
                          by_cases h13 : l.ch = 123
                          · rw [if_pos h13]; rfl
                          · rw [if_neg h13]
                            by_cases h14 : l.ch = 125
                            · rw [if_pos h14]; rfl
                            · rw [if_neg h14]
                              by_cases h15 : l.ch = 0
                              · rw [if_pos h15]; rfl
                              · rw [if_neg h15]
                                by_cases h16 : is_letter l.ch = true
                                · rw [if_pos h16]; rfl
                                · rw [if_neg h16]
                                  by_cases h17 : isAsciiDigit l.ch = true
                                  · rw [if_pos h17]; rfl
                                  · rw [if_neg h17]; rfl

theorem next_token_always_ok (l : Lexer) :
    ∃ t l2, l.next_token = Except.ok (t, l2) := by
  have h := next_token_at_isOk l.skip_whitespace
  unfold Lexer.next_token
  cases hx : Lexer.next_token_at l.skip_whitespace with
  | ok a => exact ⟨a.1, a.2, rfl⟩
  | error e => rw [hx] at h; exact absurd h (by simp [exceptIsOk])

theorem next_token_ch0 (l : Lexer) (h : l.ch = 0) :
    l.next_token = Except.ok (Token.Eof, l.read_char) := by
  have hws : isAsciiWhitespace l.ch = false := by rw [h]; rfl
  unfold Lexer.next_token
  rw [skip_whitespace_not_ws l hws]
  unfold Lexer.next_token_at
  rw [h]
  norm_num

theorem read_char_past (l : Lexer) (h : l.input.length ≤ l.read_pos) :
    l.read_char.ch = 0 ∧ l.read_char.input.length ≤ l.read_char.read_pos := by
  refine ⟨?_, ?_⟩
  · simp [Lexer.read_char, h]
  · simp [Lexer.read_char]
    omega

/-! Helper lemmas about the parser's token shift. -/

theorem next_token_cur (p : Parser) : p.next_token.cur_token = p.peek_token := by
  unfold Parser.next_token
  cases p.lexer.next_token with
  | ok a => rfl
  | error e => rfl

theorem next_token_drop_cur (p : Parser) (c : Option Token) :
    Parser.next_token ⟨p.lexer, c, p.peek_token, p.errors⟩ = p.next_token := by
  unfold Parser.next_token
  cases p.lexer.next_token with
  | ok a => rfl
  | error e => rfl

theorem parser_next_stuck (p : Parser) (h3 : p.lexer.ch = 0) :
    p.next_token = ⟨p.lexer.read_char, p.peek_token, some Token.Eof, p.errors⟩ := by
  unfold Parser.next_token
  rw [next_token_ch0 p.lexer h3]

/-- Once the parser's lookahead window holds `Eof` in both slots and its
lexer is past the end of the buffer, the `while current != ;` recovery
loop never meets its exit condition: every fuel bound runs out. -/
theorem scan_stuck (n : Nat) : ∀ p : Parser,
    p.cur_token = some Token.Eof → p.peek_token = some Token.Eof →
    p.lexer.ch = 0 → p.lexer.input.length ≤ p.lexer.read_pos →
    Parser.scan_to_semicolon n p = Res.out := by
  induction n with
  | zero => intro p _ _ _ _; rfl
  | succ n ih =>
    intro p h1 h2 h3 h4
    show (if p.cur_token = some Token.Semicolon then Res.ok p
          else Parser.scan_to_semicolon n p.next_token) = Res.out
    rw [if_neg (by simp [h1])]
    have hnext := parser_next_stuck p h3
    have hrc := read_char_past p.lexer h4
    apply ih
    · rw [hnext]; exact h2
    · rw [hnext]
    · rw [hnext]; exact hrc.1
    · rw [hnext]; exact hrc.2

/-- On `let x = 5` (no terminating semicolon) the recovery loop of
`parse_let_stmt` is entered in this state and, whatever the fuel, never
returns: three shifts reach the persistent double-`Eof` window, from
which `scan_stuck` applies. -/
theorem scan_letx (n : Nat) :
    Parser.scan_to_semicolon n
      ⟨⟨[108, 101, 116, 32, 120, 32, 61, 32, 53], 7, 8, 32⟩,
        none, some Token.Assign, []⟩ = Res.out := by
  match n with
  | 0 => rfl
  | 1 => rfl
  | 2 => rfl
  | n + 3 =>
    show Parser.scan_to_semicolon n
      ⟨⟨[108, 101, 116, 32, 120, 32, 61, 32, 53], 11, 12, 0⟩,
        some Token.Eof, some Token.Eof, []⟩ = Res.out
    exact scan_stuck n _ rfl rfl rfl (by norm_num)

/-! The claims. -/

/-- C1: the claim says `parse_program` terminates on every input because
the `while current != ;` recovery scan treats `Eof` as a forced stop.  The
code has no such stop: on `let x = 5` (well-formed up to the missing
semicolon) the recovery loop never exits — the run exhausts every fuel
bound, i.e. the Rust program loops forever. -/
theorem claim1_parse_program_diverges (fuel : Nat) :
    Parser.parse_program fuel (mkParser "let x = 5") = Res.out := by
  match fuel with
  | 0 => rfl
  | f + 1 =>
    have hstmt : Parser.parse_stmt f (mkParser "let x = 5") = Res.out := by
      have heq : Parser.parse_stmt f (mkParser "let x = 5") =
          (match Parser.scan_to_semicolon f
              ⟨⟨[108, 101, 116, 32, 120, 32, 61, 32, 53], 7, 8, 32⟩,
                none, some Token.Assign, []⟩ with
            | Res.ok q => Res.ok (some (Statement.Let Token.Let (Token.Ident "x") none), q)
            | Res.panicked => Res.panicked
            | Res.out => Res.out) := rfl
      rw [heq, scan_letx f]
    have hloop : Parser.parse_program_loop (f + 1) (mkParser "let x = 5") [] = Res.out := by
      have heq : Parser.parse_program_loop (f + 1) (mkParser "let x = 5") [] =
          (match Parser.parse_stmt f (mkParser "let x = 5") with
            | Res.ok (stmtOpt, p) =>
                Parser.parse_program_loop f p.next_token
                  (match stmtOpt with | some s => [] ++ [s] | none => [])
            | Res.panicked => Res.panicked
            | Res.out => Res.out) := rfl
      rw [heq, hstmt]
    show (match Parser.parse_program_loop (f + 1) (mkParser "let x = 5") [] with
          | Res.ok (stmts, p) => Res.ok (Node.Program stmts, p)
          | Res.panicked => Res.panicked
          | Res.out => Res.out) = Res.out
    rw [hloop]

/-- C2: the claim says `parse_program` never raises a fatal error, even
when an integer literal's digit text does not fit in an `i64`.  But
`parse_integer_literal` calls `val.parse::<i64>().unwrap()`: on the input
`9223372036854775808;` (one more than `i64::MAX`) the conversion is an
`Err` and the `unwrap` panics. -/
theorem claim2_integer_overflow_panics :
    Parser.parse_program 60 (mkParser "9223372036854775808;") = Res.panicked ∧
    parse_i64 "9223372036854775808" = none :=
  ⟨rfl, rfl⟩

/-- C3: `Prefix` renders as `(<op><operand>)`, `Infix` as
`(<left> <op> <right>)`, and the three precedence examples of the spec
render exactly as claimed (the third one as two statements). -/
theorem claim3_render_parenthesized :
    (∀ (t : Token) (r : Option Expression),
      (Expression.Prefix t r).render = "(" ++ t.displayStr ++ renderOpt r ++ ")") ∧
    (∀ (l : Option Expression) (t : Token) (r : Option Expression),
      (Expression.Infix l t r).render =
        "(" ++ renderOpt l ++ " " ++ t.displayStr ++ " " ++ renderOpt r ++ ")") ∧
    progRender 100 "-a * b" = some (1, "((-a) * b)") ∧
    progRender 100 "a + b * c + d / e - f" = some (1, "(((a + (b * c)) + (d / e)) - f)") ∧
    progRender 100 "3 + 4; -5 * 5" = some (2, "(3 + 4)((-5) * 5)") :=
  ⟨fun t r => by cases r <;> rfl,
   fun l t r => by cases l <;> cases r <;> rfl,
   rfl, rfl, rfl⟩

/-- C4: the three-`let` program parses to exactly three `Let` statements
with identifier tokens `x`, `y`, `foobar` in source order and an empty
error list. -/
theorem claim4_three_lets :
    progStmtsErrors 100 "let x = 5; let y = 10; let foobar = 838383;" =
      some ([Statement.Let Token.Let (Token.Ident "x") none,
             Statement.Let Token.Let (Token.Ident "y") none,
             Statement.Let Token.Let (Token.Ident "foobar") none], []) :=
  rfl

/-- The statements `let 5 = 5;` parses to (none of them a `Let`). -/
def c5_stmts : List Statement :=
  [Statement.Expression (Token.Int "5") (some (Expression.IntegerLiteral (Token.Int "5") 5)),
   Statement.Expression Token.Assign none,
   Statement.Expression (Token.Int "5") (some (Expression.IntegerLiteral (Token.Int "5") 5))]

/-- The diagnostics `let 5 = 5;` produces. -/
def c5_errors : List String :=
  [expectedMsg (Token.Ident "identifier") (Token.Int "5"),
   "no prefix parse function for ="]

/-- C5: on `let 5 = 5;` the parser records the expected-identifier
diagnostic, emits no `Let` statement, and completes with at least one
diagnostic in the error list. -/
theorem claim5_let_bad_ident :
    progStmtsErrors 100 "let 5 = 5;" = some (c5_stmts, c5_errors) ∧
    c5_stmts.all (fun s => ! s.isLet) = true ∧
    1 ≤ c5_errors.length ∧
    c5_errors.head? = some (expectedMsg (Token.Ident "identifier") (Token.Int "5")) :=
  ⟨rfl, rfl, by norm_num [c5_errors], rfl⟩

/-- C6: every call to `next_token` returns exactly one token (an `Ok`,
never an error result), and a current byte that is no recognized class —
not whitespace, operator/punctuation, the 0 sentinel, letter or digit —
yields the `Illegal` token while the scan advances one byte. -/
theorem claim6_next_token_total (l : Lexer) :
    (∃ t l2, l.next_token = Except.ok (t, l2)) ∧
    (isAsciiWhitespace l.ch = false → recognizedByte l.ch = false →
      l.next_token = Except.ok (Token.Illegal, l.read_char)) := by
  refine ⟨next_token_always_ok l, fun hws hrec => ?_⟩
  simp only [recognizedByte, Bool.or_eq_false_iff, beq_eq_false_iff_ne, ne_eq] at hrec
  obtain ⟨⟨⟨⟨⟨⟨⟨⟨⟨⟨⟨⟨⟨⟨⟨⟨h61, h33⟩, h43⟩, h45⟩, h47⟩, h42⟩, h60⟩, h62⟩, h59⟩,
    h40⟩, h41⟩, h44⟩, h123⟩, h125⟩, h0⟩, hlett⟩, hdigi⟩ := hrec
  unfold Lexer.next_token
  rw [skip_whitespace_not_ws l hws]
  unfold Lexer.next_token_at
  rw [if_neg h61, if_neg h33, if_neg h43, if_neg h45, if_neg h47, if_neg h42,
    if_neg h60, if_neg h62, if_neg h59, if_neg h40, if_neg h41, if_neg h44,
    if_neg h123, if_neg h125, if_neg h0,
    if_neg (by simp [hlett]), if_neg (by simp [hdigi])]

/-- C6 at a concrete input: the byte `@` (64) is in no recognized class
and lexes to `Illegal`, the cursor moving on. -/
theorem claim6_witness :
    Lexer.next_token (Lexer.new (bytes "@")) =
      Except.ok (Token.Illegal, (Lexer.new (bytes "@")).read_char) :=
  (claim6_next_token_total (Lexer.new (bytes "@"))).2 (by decide) (by decide)

/-- C7 as frozen is false at a concrete reachable state: for the lexer
freshly primed on `a`, the read position (1) has already reached the end
of the one-byte buffer, yet the next call returns `Ident "a"`, not
`Eof`. -/
theorem claim7_counterexample :
    (Lexer.new (bytes "a")).input.length ≤ (Lexer.new (bytes "a")).read_pos ∧
    (Lexer.new (bytes "a")).next_token =
      Except.ok (Token.Ident "a", ⟨bytes "a", 1, 2, 0⟩) ∧
    Token.Ident "a" ≠ Token.Eof :=
  ⟨by decide, rfl, by decide⟩

/-- C7 amended: once the lexer has consumed its entire input — its
current byte is the 0 sentinel and its read position is at or past the
end of the byte buffer — every call to `next_token` returns `Eof` and
re-establishes the same condition, so `Eof` is permanent and
idempotent. -/
theorem claim7_eof_permanent (l : Lexer) (h1 : l.ch = 0)
    (h2 : l.input.length ≤ l.read_pos) :
    l.next_token = Except.ok (Token.Eof, l.read_char) ∧
    l.read_char.ch = 0 ∧ l.read_char.input.length ≤ l.read_char.read_pos :=
  ⟨next_token_ch0 l h1, (read_char_past l h2).1, (read_char_past l h2).2⟩

/-- C7 at a concrete input: the lexer primed on the empty source is
exhausted and keeps yielding `Eof`. -/
theorem claim7_witness :
    Lexer.next_token (Lexer.new (bytes "")) =
      Except.ok (Token.Eof, (Lexer.new (bytes "")).read_char) ∧
    (Lexer.new (bytes "")).read_char.ch = 0 ∧
    (Lexer.new (bytes "")).read_char.input.length ≤
      (Lexer.new (bytes "")).read_char.read_pos :=
  claim7_eof_permanent (Lexer.new (bytes "")) rfl (by decide)

/-- C8: `10 == 10;` tokenizes to exactly
`[Int "10", Eq, Int "10", Semicolon, Eof]`; the two-character operators
are recognized by the one-byte peek (`!= ==` gives `[Neq, Eq, Eof]`),
while a lone `=` yields `Assign` and a lone `!` yields `Bang`. -/
theorem claim8_operator_tokens :
    lexN 5 (Lexer.new (bytes "10 == 10;")) =
      [Token.Int "10", Token.Eq, Token.Int "10", Token.Semicolon, Token.Eof] ∧
    lexN 3 (Lexer.new (bytes "!= ==")) = [Token.Neq, Token.Eq, Token.Eof] ∧
    Lexer.next_token (Lexer.new (bytes "=")) =
      Except.ok (Token.Assign, ⟨bytes "=", 1, 2, 0⟩) ∧
    Lexer.next_token (Lexer.new (bytes "!")) =
      Except.ok (Token.Bang, ⟨bytes "!", 1, 2, 0⟩) :=
  ⟨rfl, rfl, rfl, rfl⟩

/-- C9: whenever the current byte is the NUL sentinel, `next_token`
returns `Eof` but still runs `read_char`, moving the cursor past the
byte; on the buffer `a NUL b` the stream is therefore
`Ident "a", Eof, Ident "b", Eof, ...` — an embedded NUL's `Eof` does not
terminate the stream. -/
theorem claim9_embedded_nul :
    (∀ l : Lexer, l.ch = 0 →
      l.next_token = Except.ok (Token.Eof, l.read_char) ∧
      l.read_char.pos = l.read_pos) ∧
    lexN 5 (Lexer.new [97, 0, 98]) =
      [Token.Ident "a", Token.Eof, Token.Ident "b", Token.Eof, Token.Eof] :=
  ⟨fun l h => ⟨next_token_ch0 l h, rfl⟩, rfl⟩

/-- C9 at the concrete mid-stream state of the buffer `a NUL b`: the NUL
yields `Eof` and the cursor lands on the `b`. -/
theorem claim9_witness :
    Lexer.next_token ⟨[97, 0, 98], 1, 2, 0⟩ =
      Except.ok (Token.Eof, Lexer.read_char ⟨[97, 0, 98], 1, 2, 0⟩) ∧
    Lexer.read_char ⟨[97, 0, 98], 1, 2, 0⟩ = ⟨[97, 0, 98], 2, 3, 98⟩ :=
  ⟨(claim9_embedded_nul.1 ⟨[97, 0, 98], 1, 2, 0⟩ rfl).1, rfl⟩

/-- C10: with `let` current, an identifier in peek, and a non-`=` token
after the identifier, `parse_let_stmt` records the expected-assign
diagnostic and returns no statement, leaving the parser exactly one shift
past entry (the `;` recovery scan is not run: the lexer, peek slot and any
later tokens are untouched); `parse_program` then advances one token and
reparses the rest as expression statements — on `let x 5 = 3;` that
yields three expression statements and a second diagnostic for the same
source statement. -/
theorem claim10_let_no_assign (fuel : Nat) (p : Parser) (s : String) (tok : Token)
    (h1 : p.cur_token = some Token.Let)
    (h2 : p.peek_token = some (Token.Ident s))
    (h3 : p.next_token.peek_token = some tok)
    (h4 : tok ≠ Token.Assign) :
    (Parser.parse_let_stmt fuel p =
      Res.ok (none,
        { lexer := p.next_token.lexer, cur_token := none,
          peek_token := p.next_token.peek_token,
          errors := p.next_token.errors ++ [expectedMsg Token.Assign tok] })) ∧
    progStmtsErrors 100 "let x 5 = 3;" =
      some ([Statement.Expression (Token.Int "5")
               (some (Expression.IntegerLiteral (Token.Int "5") 5)),
             Statement.Expression Token.Assign none,
             Statement.Expression (Token.Int "3")
               (some (Expression.IntegerLiteral (Token.Int "3") 3))],
            [expectedMsg Token.Assign (Token.Int "5"),
             "no prefix parse function for ="]) := by
  refine ⟨?_, rfl⟩
  have hq : Parser.next_token ⟨p.lexer, none, some (Token.Ident s), p.errors⟩ = p.next_token := by
    rw [← h2]; exact next_token_drop_cur p none
  unfold Parser.parse_let_stmt
  simp only [h1, h2, hq, next_token_cur, h3, Option.some.injEq]
  rw [if_neg h4]
  simp only [Parser.peek_error, h3]

/-- C10 at the concrete input `let x 5 = 3;`: the aborted `let` leaves
the parser one shift past entry with the single expected-assign
diagnostic, and the whole program reparses to three expression statements
with two diagnostics. -/
theorem claim10_witness :
    (Parser.parse_let_stmt 7 (mkParser "let x 5 = 3;") =
      Res.ok (none,
        ⟨⟨[108, 101, 116, 32, 120, 32, 53, 32, 61, 32, 51, 59], 7, 8, 32⟩,
          none, some (Token.Int "5"),
          ["expected next token to be Assign, got Int(\"5\") instead"]⟩)) ∧
    progStmtsErrors 100 "let x 5 = 3;" =
      some ([Statement.Expression (Token.Int "5")
               (some (Expression.IntegerLiteral (Token.Int "5") 5)),
             Statement.Expression Token.Assign none,
             Statement.Expression (Token.Int "3")
               (some (Expression.IntegerLiteral (Token.Int "3") 3))],
            [expectedMsg Token.Assign (Token.Int "5"),
             "no prefix parse function for ="]) :=
  claim10_let_no_assign 7 (mkParser "let x 5 = 3;") "x" (Token.Int "5")
    rfl rfl rfl (by decide)

end Intpbk
